import Mathlib

/-
Verification of the aios shim (the Object and State classes written out by
src/create_minimal_aios.py, identical copies at lines 35-95 and 109-181).

The State class is embedded as a pure record with explicit state passing:
change_state returns an Except (a raised ValueError becomes .error), reset is a
total function, and the wall-clock timestamp from time.time() is passed in as
an explicit argument since its value never matters here.
-/

/-- A history record, Python dict \x7b'from': old, 'to': new, 'timestamp': t\x7d.
The 'from' field holds the previous current_state, which can be None. -/
structure HRec where
  from_ : Option String
  to_ : String
  timestamp : Nat
deriving DecidableEq, Repr

/-- The State class: states list, name, current_state (None when states is
empty), and the history list. -/
structure State where
  states : List String
  name : String
  current_state : Option String
  history : List HRec
deriving DecidableEq, Repr

/-- Python truthiness of the `default` argument: None and "" are falsy. -/
def truthy : Option String → Bool
  | none => false
  | some s => if s = "" then false else true

/-- State.__init__: `self.states = list(states)`, and
`self.current_state = default or states[0] if states else None` which parses as
`(default or states[0]) if states else None`. No validation is performed. -/
def mkState (states : List String) (name : String) (default : Option String) : State :=
  { states := states
    name := name
    current_state :=
      if states.isEmpty then none
      else if truthy default then default else states.head?
    history := [] }

/-- State.change_state: on membership, set current_state and append one record,
returning True; otherwise raise ValueError (no field is mutated before the
raise, so failure leaves the object untouched). -/
def change_state (s : State) (new_state : String) (now : Nat) : Except String State :=
  if new_state ∈ s.states then
    .ok { s with
      current_state := some new_state
      history := s.history ++ [{ from_ := s.current_state, to_ := new_state, timestamp := now }] }
  else
    .error ("Invalid state: " ++ new_state ++ ". Valid states: " ++
      String.intercalate ", " s.states)

/-- State.reset: `if self.states: self.current_state = self.states[0];
self.history.clear()` — a no-op when states is empty. -/
def reset (s : State) : State :=
  if s.states.isEmpty then s
  else { s with current_state := s.states.head?, history := [] }

/-- One call made by a client: a change_state call (with the wall-clock time it
observes) or a reset call. -/
inductive Op where
  | trans (target : String) (now : Nat)
  | reset
deriving DecidableEq, Repr

/-- Effect of one call on the machine; a change_state call that raises leaves
the machine unchanged. -/
def step (s : State) : Op → State
  | .trans t now =>
    match change_state s t now with
    | .ok s2 => s2
    | .error _ => s
  | .reset => reset s

/-- A whole client session: the machine after a sequence of calls. -/
def run (s : State) (ops : List Op) : State := ops.foldl step s

/-- The 'to' field of the last history record, if any. -/
def lastTo : List HRec → Option String
  | [] => none
  | [r] => some r.to_
  | _ :: r2 :: rest => lastTo (r2 :: rest)

/-- The chain condition of spec section 3: each record's 'to' equals the
immediately following record's 'from'. -/
def chainOk : List HRec → Bool
  | [] => true
  | [_] => true
  | r1 :: r2 :: rest =>
    if (some r1.to_ : Option String) = r2.from_ then chainOk (r2 :: rest) else false

/-- The 'to' of the last record of a history extended by one record is the new
record's 'to'. -/
theorem lastTo_append (l : List HRec) (r : HRec) : lastTo (l ++ [r]) = some r.to_ := by
  induction l with
  | nil => rfl
  | cons a rest ih =>
    cases rest with
    | nil => rfl
    | cons a2 rest2 => simpa [lastTo] using ih

/-- C1: a transition to a member of states succeeds, sets current_state to the
target, and appends exactly one record \x7bfrom := old current, to_ := target,
timestamp\x7d at the end of history; the last record's 'to' equals the new
current. -/
theorem c1_transition_success (s : State) (t : String) (now : Nat)
    (hnd : s.states.Nodup) (ht : t ∈ s.states) :
    change_state s t now = .ok { s with
        current_state := some t
        history := s.history ++
          [{ from_ := s.current_state, to_ := t, timestamp := now }] } ∧
      (step s (.trans t now)).current_state = some t ∧
      (step s (.trans t now)).history = s.history ++
        [{ from_ := s.current_state, to_ := t, timestamp := now }] ∧
      lastTo (step s (.trans t now)).history = some t := by
  have hok : change_state s t now = .ok { s with
      current_state := some t
      history := s.history ++
        [{ from_ := s.current_state, to_ := t, timestamp := now }] } := by
    simp [change_state, ht]
  have hstep : step s (.trans t now) = { s with
      current_state := some t
      history := s.history ++
        [{ from_ := s.current_state, to_ := t, timestamp := now }] } := by
    simp [step, hok]
  refine ⟨hok, by rw [hstep], by rw [hstep], ?_⟩
  rw [hstep]
  exact lastTo_append s.history _

theorem c1_transition_success_witness :
    change_state (mkState ["idle", "working", "done"] "status" (some "idle"))
        "working" 7 = .ok { mkState ["idle", "working", "done"] "status" (some "idle") with
        current_state := some "working"
        history := (mkState ["idle", "working", "done"] "status" (some "idle")).history ++
          [{ from_ := (mkState ["idle", "working", "done"] "status"
              (some "idle")).current_state, to_ := "working", timestamp := 7 }] } ∧
      (step (mkState ["idle", "working", "done"] "status" (some "idle"))
        (.trans "working" 7)).current_state = some "working" ∧
      (step (mkState ["idle", "working", "done"] "status" (some "idle"))
        (.trans "working" 7)).history =
        (mkState ["idle", "working", "done"] "status" (some "idle")).history ++
          [{ from_ := (mkState ["idle", "working", "done"] "status"
              (some "idle")).current_state, to_ := "working", timestamp := 7 }] ∧
      lastTo (step (mkState ["idle", "working", "done"] "status" (some "idle"))
        (.trans "working" 7)).history = some "working" :=
  c1_transition_success (mkState ["idle", "working", "done"] "status" (some "idle"))
    "working" 7 (by decide) (by decide)

/-- C2: a transition whose target is not a member of states raises ValueError
and leaves the machine exactly as it was: current_state and history (hence its
length) are unchanged. -/
theorem c2_transition_failure (s : State) (t : String) (now : Nat)
    (ht : t ∉ s.states) :
    change_state s t now = .error ("Invalid state: " ++ t ++ ". Valid states: " ++
        String.intercalate ", " s.states) ∧
      step s (.trans t now) = s := by
  have h : change_state s t now = .error ("Invalid state: " ++ t ++ ". Valid states: " ++
      String.intercalate ", " s.states) := by
    simp [change_state, ht]
  exact ⟨h, by simp [step, h]⟩

theorem c2_transition_failure_witness :
    change_state (mkState ["idle", "working", "done"] "status" (some "idle"))
        "nonexistent" 3 =
      .error ("Invalid state: " ++ "nonexistent" ++ ". Valid states: " ++
        String.intercalate ", " (mkState ["idle", "working", "done"] "status"
          (some "idle")).states) ∧
      step (mkState ["idle", "working", "done"] "status" (some "idle"))
        (.trans "nonexistent" 3) =
        mkState ["idle", "working", "done"] "status" (some "idle") :=
  c2_transition_failure (mkState ["idle", "working", "done"] "status" (some "idle"))
    "nonexistent" 3 (by decide)

/-- C9: constructing a State from an empty states list succeeds with
current_state None and empty history; change_state then raises ValueError for
every argument and leaves the machine unchanged, and reset is a no-op. -/
theorem c9_empty_states (name : String) (default : Option String) :
    (mkState [] name default).current_state = none ∧
      (mkState [] name default).history = [] ∧
      (∀ t now, ∃ msg, change_state (mkState [] name default) t now = .error msg) ∧
      (∀ t now, step (mkState [] name default) (.trans t now) = mkState [] name default) ∧
      reset (mkState [] name default) = mkState [] name default := by
  refine ⟨rfl, rfl, ?_, ?_, rfl⟩
  · intro t now
    exact ⟨"Invalid state: " ++ t ++ ". Valid states: " ++ String.intercalate ", " [],
      by simp [change_state, mkState]⟩
  · intro t now
    simp [step, change_state, mkState]

/-- The states list is never changed by any call. -/
theorem states_step (s : State) (op : Op) : (step s op).states = s.states := by
  cases op with
  | trans t now =>
    by_cases ht : t ∈ s.states
    · simp [step, change_state, ht]
    · simp [step, change_state, ht]
  | reset =>
    by_cases h : s.states.isEmpty
    · simp [step, reset, h]
    · simp [step, reset, h]

/-- The states list after a whole session is the constructed one. -/
theorem states_run (s : State) (ops : List Op) : (run s ops).states = s.states := by
  induction ops generalizing s with
  | nil => rfl
  | cons op rest ih => rw [run, List.foldl_cons, ← run, ih, states_step]

/-- C3 counterexample: all three malformed argument sets the claim lists do
construct a State without any error: an empty states list (current_state
becomes None), a duplicated label, and a default that is not a member. -/
theorem c3_counterexample :
    mkState [] "state" none =
      { states := [], name := "state", current_state := none, history := [] } ∧
    mkState ["a", "a"] "state" none =
      { states := ["a", "a"], name := "state", current_state := some "a", history := [] } ∧
    mkState ["a"] "state" (some "z") =
      { states := ["a"], name := "state", current_state := some "z", history := [] } := by
  decide

/-- C3 amended: State.__init__ never fails; it stores the states list verbatim
(duplicates included) with empty history, sets current_state to None when
states is empty, and stores a truthy default as current_state even when it is
not a member of states. -/
theorem c3_construction_never_fails (sts : List String) (n : String) (d : Option String) :
    (mkState sts n d).states = sts ∧
      (mkState sts n d).history = [] ∧
      (sts = [] → (mkState sts n d).current_state = none) ∧
      (∀ d0, d = some d0 → d0 ≠ "" → sts ≠ [] →
        (mkState sts n d).current_state = some d0) := by
  refine ⟨rfl, rfl, ?_, ?_⟩
  · intro h
    simp [mkState, h]
  · intro d0 hd hne hsts
    simp [mkState, truthy, hd, hne, List.isEmpty_iff, hsts]

theorem c3_construction_never_fails_witness :
    (mkState ["x"] "n" (some "q")).states = ["x"] ∧
      (mkState ["x"] "n" (some "q")).current_state = some "q" :=
  ⟨(c3_construction_never_fails ["x"] "n" (some "q")).1,
    (c3_construction_never_fails ["x"] "n" (some "q")).2.2.2 "q" rfl
      (by decide) (by decide)⟩

/-- C4 counterexample: a machine constructed with default "working" has
current_state "working", yet reset sets current_state to "idle" (the first
declared state), not back to the construction-time initial state. -/
theorem c4_counterexample :
    (mkState ["idle", "working"] "state" (some "working")).current_state = some "working" ∧
      (reset (mkState ["idle", "working"] "state" (some "working"))).current_state =
        some "idle" ∧
      (reset (mkState ["idle", "working"] "state" (some "working"))).current_state ≠
        (mkState ["idle", "working"] "state" (some "working")).current_state := by
  decide

/-- C4 amended: when states is non-empty, reset sets current_state to the first
declared state (regardless of any construction-time default) and empties
history; when states is empty, reset is a no-op. Reset never fails. -/
theorem c4_reset_to_first_state (s : State) :
    (s.states ≠ [] →
      reset s = { s with current_state := s.states.head?, history := [] }) ∧
      (s.states = [] → reset s = s) := by
  constructor
  · intro h
    simp [reset, List.isEmpty_iff, h]
  · intro h
    simp [reset, h]

theorem c4_reset_to_first_state_witness :
    reset (mkState ["a", "b"] "n" none) =
      { mkState ["a", "b"] "n" none with
        current_state := (mkState ["a", "b"] "n" none).states.head?, history := [] } :=
  (c4_reset_to_first_state (mkState ["a", "b"] "n" none)).1 (by decide)

/-- C5 counterexample: constructed with a default that is not a member of
states, the machine (reachable by the empty call sequence) has a current_state
outside the declared states. -/
theorem c5_counterexample :
    (run (mkState ["idle"] "state" (some "bogus")) []).current_state = some "bogus" ∧
      "bogus" ∉ (run (mkState ["idle"] "state" (some "bogus")) []).states := by
  decide

/-- current_state holds some member of the declared states. -/
def curMem (s : State) : Prop := ∃ c, s.current_state = some c ∧ c ∈ s.states

/-- Every call preserves membership of current_state in states. -/
theorem curMem_step (s : State) (op : Op) (h : curMem s) : curMem (step s op) := by
  obtain ⟨c, hc, hmem⟩ := h
  cases op with
  | trans t now =>
    by_cases ht : t ∈ s.states
    · exact ⟨t, by simp [step, change_state, ht], by simpa [states_step] using ht⟩
    · exact ⟨c, by simp [step, change_state, ht, hc], by simpa [states_step, change_state, ht]⟩
  | reset =>
    by_cases hne : s.states.isEmpty
    · exact ⟨c, by simp [step, reset, hne, hc], by simp [step, reset, hne, hmem]⟩
    · rcases List.exists_cons_of_ne_nil (by simpa [List.isEmpty_iff] using hne) with ⟨a, l, hal⟩
      exact ⟨a, by simp [step, reset, hne, hal], by simp [step, reset, hne, hal]⟩

theorem curMem_run (s : State) (ops : List Op) (h : curMem s) : curMem (run s ops) := by
  induction ops generalizing s with
  | nil => exact h
  | cons op rest ih => exact ih (step s op) (curMem_step s op h)

/-- C5 amended: for every machine constructed from a non-empty states list with
a default that is absent, falsy, or a member of states, current_state is a
member of the declared states in every reachable state, across any sequence of
transition and reset calls, successful or failed. -/
theorem c5_current_in_states (sts : List String) (n : String) (d : Option String)
    (ops : List Op) (hne : sts ≠ [])
    (hd : ∀ d0, d = some d0 → d0 = "" ∨ d0 ∈ sts) :
    (run (mkState sts n d) ops).current_state ∈ sts.map some := by
  have h0 : curMem (mkState sts n d) := by
    rcases List.exists_cons_of_ne_nil hne with ⟨a, l, hal⟩
    cases d with
    | none => exact ⟨a, by simp [mkState, truthy, hal], by simp [mkState, hal]⟩
    | some d0 =>
      rcases hd d0 rfl with h | h
      · exact ⟨a, by simp [mkState, truthy, hal, h], by simp [mkState, hal]⟩
      · by_cases hz : d0 = ""
        · exact ⟨a, by simp [mkState, truthy, hal, hz], by simp [mkState, hal]⟩
        · exact ⟨d0, by simp [mkState, truthy, hal, hz], h⟩
  obtain ⟨c, hc, hmem⟩ := curMem_run (mkState sts n d) ops h0
  rw [hc]
  exact List.mem_map.mpr ⟨c, by simpa [states_run, mkState] using hmem, rfl⟩

theorem c5_current_in_states_witness :
    (run (mkState ["idle", "working"] "m" (some "working"))
      [.trans "idle" 1, .reset]).current_state ∈ ["idle", "working"].map some :=
  c5_current_in_states ["idle", "working"] "m" (some "working")
    [.trans "idle" 1, .reset] (by decide) (by intro d0 h; simp at h; simp [h])

/-- C7 counterexample: the State class has no allowedTransitions; with the
claim's states and current "idle", change_state "done" succeeds (setting
current_state to "done") instead of raising IllegalTransitionError. -/
theorem c7_counterexample :
    change_state (mkState ["idle", "working", "done"] "state" (some "idle")) "done" 0 =
      .ok { states := ["idle", "working", "done"], name := "state",
            current_state := some "done",
            history := [{ from_ := some "idle", to_ := "done", timestamp := 0 }] } := by
  rfl

/-- C7 amended: the State constructor accepts no transition graph, and a
transition succeeds for every target in states, whatever the (current, target)
pair; in particular moving directly from "idle" to "done" succeeds. -/
theorem c7_any_pair_allowed (s : State) (t : String) (now : Nat) (ht : t ∈ s.states) :
    (change_state s t now).isOk = true ∧
      (step s (.trans t now)).current_state = some t := by
  have hok : change_state s t now = .ok { s with
      current_state := some t
      history := s.history ++
        [{ from_ := s.current_state, to_ := t, timestamp := now }] } := by
    simp [change_state, ht]
  exact ⟨by simp [hok, Except.isOk, Except.toBool], by simp [step, hok]⟩

theorem c7_any_pair_allowed_witness :
    (change_state (mkState ["idle", "working", "done"] "state" (some "idle"))
        "done" 5).isOk = true ∧
      (step (mkState ["idle", "working", "done"] "state" (some "idle"))
        (.trans "done" 5)).current_state = some "done" :=
  c7_any_pair_allowed (mkState ["idle", "working", "done"] "state" (some "idle"))
    "done" 5 (by decide)

/-- The history-consistency property exactly as claim C6 states it, relative to
the construction-time initial state `init`: the chain condition holds, and
either history is empty and current_state equals the initial state, or the
last record's 'to' equals current_state. -/
def histInvSpec (init : Option String) (s : State) : Prop :=
  chainOk s.history = true ∧
    ((s.history = [] ∧ s.current_state = init) ∨
      (s.history ≠ [] ∧ s.current_state = lastTo s.history))

instance (init : Option String) (s : State) : Decidable (histInvSpec init s) := by
  unfold histInvSpec
  infer_instance

/-- C6 counterexample: the claim's invariant holds at construction for a
machine built with default "working", but is destroyed by a reset call: after
reset the history is empty while current_state is "idle", not the initial
state "working". -/
theorem c6_counterexample :
    histInvSpec (mkState ["idle", "working"] "state" (some "working")).current_state
        (mkState ["idle", "working"] "state" (some "working")) ∧
      ¬ histInvSpec (mkState ["idle", "working"] "state" (some "working")).current_state
        (run (mkState ["idle", "working"] "state" (some "working")) [.reset]) := by
  decide

/-- The amended history invariant: the chain condition holds, and either
history is empty and current_state is the initial state or the first declared
state (reset moves to the latter), or the last record's 'to' equals
current_state. -/
def histInv (init : Option String) (s : State) : Prop :=
  chainOk s.history = true ∧
    ((s.history = [] ∧
        (s.current_state = init ∨ s.current_state = s.states.head?)) ∨
      (s.history ≠ [] ∧ s.current_state = lastTo s.history))

/-- Appending a record whose 'from' matches the last 'to' keeps the chain. -/
theorem chainOk_append (l : List HRec) (r : HRec) (h : chainOk l = true)
    (hlink : ∀ t, lastTo l = some t → r.from_ = some t) :
    chainOk (l ++ [r]) = true := by
  induction l with
  | nil => rfl
  | cons a rest ih =>
    cases rest with
    | nil =>
      have hab := hlink a.to_ rfl
      simp [chainOk, hab.symm]
    | cons b rest2 =>
      have hab : (some a.to_ : Option String) = b.from_ := by
        by_contra hne
        simp [chainOk, hne] at h
      have htail : chainOk (b :: rest2) = true := by
        simpa [chainOk, hab] using h
      have hlink2 : ∀ t, lastTo (b :: rest2) = some t → r.from_ = some t := by
        intro t hti
        exact hlink t (by simpa [lastTo] using hti)
      simpa [chainOk, hab] using ih htail hlink2

/-- Every call preserves the amended history invariant. -/
theorem histInv_step (init : Option String) (s : State) (op : Op)
    (h : histInv init s) : histInv init (step s op) := by
  obtain ⟨hchain, hrest⟩ := h
  cases op with
  | trans t now =>
    by_cases ht : t ∈ s.states
    · have hstep : step s (.trans t now) = { s with
          current_state := some t
          history := s.history ++
            [{ from_ := s.current_state, to_ := t, timestamp := now }] } := by
        simp [step, change_state, ht]
      rw [hstep]
      constructor
      · apply chainOk_append _ _ hchain
        intro u hu
        show s.current_state = some u
        rcases hrest with ⟨hnil, _⟩ | ⟨_, hcur⟩
        · rw [hnil] at hu
          simp [lastTo] at hu
        · rw [hcur, hu]
      · right
        refine ⟨by simp, ?_⟩
        simp [lastTo_append]
    · have hstep : step s (.trans t now) = s := by
        simp [step, change_state, ht]
      rw [hstep]
      exact ⟨hchain, hrest⟩
  | reset =>
    by_cases hne : s.states.isEmpty
    · have hstep : step s .reset = s := by
        simp [step, reset, hne]
      rw [hstep]
      exact ⟨hchain, hrest⟩
    · have hstep : step s .reset = { s with
          current_state := s.states.head?, history := [] } := by
        simp [step, reset, hne]
      rw [hstep]
      exact ⟨rfl, Or.inl ⟨rfl, Or.inr rfl⟩⟩

/-- The amended invariant holds at construction. -/
theorem histInv_mkState (sts : List String) (n : String) (d : Option String) :
    histInv (mkState sts n d).current_state (mkState sts n d) :=
  ⟨rfl, Or.inl ⟨rfl, Or.inl rfl⟩⟩

/-- The amended invariant holds after any whole session. -/
theorem histInv_run (init : Option String) (s : State) (ops : List Op)
    (h : histInv init s) : histInv init (run s ops) := by
  induction ops generalizing s with
  | nil => exact h
  | cons op rest ih => exact ih (step s op) (histInv_step init s op h)

/-- C6 amended: in every reachable state of every machine, history is a
consistent chain (each record's 'to' equals the next record's 'from'); when
history is non-empty its last record's 'to' equals current_state, and when
history is empty current_state is the construction-time initial state or the
first declared state (the state reset moves to). -/
theorem c6_history_chain (sts : List String) (n : String) (d : Option String)
    (ops : List Op) :
    histInv (mkState sts n d).current_state (run (mkState sts n d) ops) :=
  histInv_run (mkState sts n d).current_state (mkState sts n d) ops
    (histInv_mkState sts n d)

/-
The Object class. Python dicts are heap values that can be shared between
objects (the constructor's `properties or \x7b\x7d` aliases a truthy argument),
so attribute mappings live in an explicit heap of dicts addressed by natural
number references, and `id(self)` (unique among live objects) is modelled by a
fresh-id counter carried in the same heap.
-/

/-- An attribute value: the surrounding scripts store ints, strings and string
lists in properties. -/
inductive PVal where
  | int (n : Int)
  | str (s : String)
  | strs (l : List String)
deriving DecidableEq, Repr

/-- A Python dict with string keys: an association list in insertion order,
each key bound at most once. -/
abbrev Dict := List (String × PVal)

/-- `d[key] = value`: overwrite in place when the key exists, else append. -/
def dictSet (d : Dict) (k : String) (v : PVal) : Dict :=
  if d.any (fun p => p.1 == k) then
    d.map (fun p => if p.1 == k then (k, v) else p)
  else d ++ [(k, v)]

/-- `d.get(key)`: the binding of the key, if any. -/
def dictGet (d : Dict) (k : String) : Option PVal :=
  (d.find? (fun p => p.1 == k)).map (fun p => p.2)

/-- The heap: every dict allocated so far (a reference is an index into this
list) and the fresh-id counter. -/
structure Heap where
  dicts : List Dict
  nextId : Nat
deriving DecidableEq, Repr

/-- Dereference a dict; a reference produced by the allocator is always in
range. -/
def Heap.getDict (h : Heap) (r : Nat) : Dict := h.dicts.getD r []

/-- The Object class: name, reference to its properties dict, and id. -/
structure Object where
  name : String
  propsRef : Nat
  id : Nat
deriving DecidableEq, Repr

/-- Object.__init__: `self.name = name or "AIOS_Object"` (None and "" are
falsy), `self.properties = properties or \x7b\x7d` — a truthy (non-empty) dict
argument is aliased while a falsy one (None, or an empty dict) is replaced by
a freshly allocated empty dict — and `self.id = id(self)`, a fresh
identifier. -/
def Object.make (h : Heap) (name : Option String) (props : Option Nat) :
    Object × Heap :=
  let theName := match name with
    | none => "AIOS_Object"
    | some s => if s = "" then "AIOS_Object" else s
  match props with
  | some r =>
    if h.getDict r = [] then
      ({ name := theName, propsRef := h.dicts.length, id := h.nextId },
        { dicts := h.dicts ++ [[]], nextId := h.nextId + 1 })
    else
      ({ name := theName, propsRef := r, id := h.nextId },
        { h with nextId := h.nextId + 1 })
  | none =>
    ({ name := theName, propsRef := h.dicts.length, id := h.nextId },
      { dicts := h.dicts ++ [[]], nextId := h.nextId + 1 })

/-- Object.set_property: `self.properties[key] = value`, a write through the
object's reference. -/
def set_property (h : Heap) (o : Object) (k : String) (v : PVal) : Heap :=
  { h with dicts := h.dicts.set o.propsRef (dictSet (h.getDict o.propsRef) k v) }

/-- Object.get_property: `self.properties.get(key, default)`. -/
def get_property (h : Heap) (o : Object) (k : String) (dflt : Option PVal) :
    Option PVal :=
  match dictGet (h.getDict o.propsRef) k with
  | some v => some v
  | none => dflt

/-- Modelled from the spec: the Object class written by
src/create_minimal_aios.py has no clone method, although src/debug_aios.py
calls one; spec section 4.1 specifies `clone(newName?) -> Entity` as a new
Entity with a fresh identity, the given name (or the same name if omitted),
and a shallow copy of the attribute mapping. -/
def Object.clone (h : Heap) (o : Object) (newName : Option String) :
    Object × Heap :=
  ({ name := newName.getD o.name, propsRef := h.dicts.length, id := h.nextId },
    { dicts := h.dicts ++ [h.getDict o.propsRef], nextId := h.nextId + 1 })

/-- An object previously produced by the allocator: its reference is below the
heap top and its id below the counter. -/
def Object.wf (h : Heap) (o : Object) : Prop :=
  o.propsRef < h.dicts.length ∧ o.id < h.nextId

/-- Reading a dict below the heap top is unaffected by pushing a dict on top
and then overwriting that top dict. -/
theorem getD_set_top (l : List Dict) (d x : Dict) (i : Nat) (hi : i < l.length) :
    ((l ++ [d]).set l.length x).getD i [] = l.getD i [] := by
  have h1 : ((l ++ [d]).set l.length x)[i]? = (l ++ [d])[i]? :=
    List.getElem?_set_ne (Nat.ne_of_gt hi)
  have h2 : (l ++ [d])[i]? = l[i]? := List.getElem?_append_left hi
  rw [List.getD_eq_getElem?_getD, h1, h2, List.getD_eq_getElem?_getD]

/-- C8: cloning a previously allocated Object yields a fresh identity distinct
from the original's, the supplied new name (or the original's name when
omitted), and a shallow copy of the attribute mapping: setting any attribute
on the clone leaves the value the original returns for that key unchanged. -/
theorem c8_clone_independent (h : Heap) (o : Object) (newName : Option String)
    (hwf : Object.wf h o) :
    (Object.clone h o newName).1.id ≠ o.id ∧
      (Object.clone h o newName).1.name = newName.getD o.name ∧
      (newName = none → (Object.clone h o newName).1.name = o.name) ∧
      (∀ k v, get_property
          (set_property (Object.clone h o newName).2 (Object.clone h o newName).1 k v)
          o k none =
        get_property h o k none) := by
  refine ⟨Nat.ne_of_gt hwf.2, rfl, ?_, ?_⟩
  · intro hn
    rw [hn]
    rfl
  · intro k v
    show (match dictGet (Heap.getDict _ o.propsRef) k with
        | some w => some w | none => none) =
      (match dictGet (h.getDict o.propsRef) k with
        | some w => some w | none => none)
    have : Heap.getDict
        (set_property (Object.clone h o newName).2 (Object.clone h o newName).1 k v)
        o.propsRef = h.getDict o.propsRef := by
      show ((h.dicts ++ [h.getDict o.propsRef]).set h.dicts.length _).getD o.propsRef [] =
        h.dicts.getD o.propsRef []
      exact getD_set_top h.dicts _ _ o.propsRef hwf.1
    rw [this]

theorem c8_clone_independent_witness :
    (Object.clone ⟨[[("y", .int 3)]], 1⟩ ⟨"TestAgent", 0, 0⟩ (some "TestAgentClone")).1.id ≠ 0 ∧
      (Object.clone ⟨[[("y", .int 3)]], 1⟩ ⟨"TestAgent", 0, 0⟩
        (some "TestAgentClone")).1.name = (some "TestAgentClone").getD "TestAgent" ∧
      get_property
        (set_property
          (Object.clone ⟨[[("y", .int 3)]], 1⟩ ⟨"TestAgent", 0, 0⟩ (some "TestAgentClone")).2
          (Object.clone ⟨[[("y", .int 3)]], 1⟩ ⟨"TestAgent", 0, 0⟩ (some "TestAgentClone")).1
          "x" (.int 1))
        ⟨"TestAgent", 0, 0⟩ "x" none =
      get_property ⟨[[("y", .int 3)]], 1⟩ ⟨"TestAgent", 0, 0⟩ "x" none :=
  ⟨(c8_clone_independent ⟨[[("y", .int 3)]], 1⟩ ⟨"TestAgent", 0, 0⟩
      (some "TestAgentClone") (by constructor <;> decide)).1,
    (c8_clone_independent ⟨[[("y", .int 3)]], 1⟩ ⟨"TestAgent", 0, 0⟩
      (some "TestAgentClone") (by constructor <;> decide)).2.1,
    (c8_clone_independent ⟨[[("y", .int 3)]], 1⟩ ⟨"TestAgent", 0, 0⟩
      (some "TestAgentClone") (by constructor <;> decide)).2.2.2 "x" (.int 1)⟩

/-- C10: Object construction defaults: a falsy name argument (None or "")
yields the name "AIOS_Object" while a truthy name is stored unchanged, and a
falsy properties argument (None, or a reference to an empty dict) yields a
freshly allocated empty attribute mapping rather than an alias. -/
theorem c10_constructor_defaults (h : Heap) (nm : Option String) (props : Option Nat) :
    (Object.make h none props).1.name = "AIOS_Object" ∧
      (Object.make h (some "") props).1.name = "AIOS_Object" ∧
      (∀ s, s ≠ "" → (Object.make h (some s) props).1.name = s) ∧
      ((Object.make h nm none).1.propsRef = h.dicts.length ∧
        (Object.make h nm none).2.getDict (Object.make h nm none).1.propsRef = []) ∧
      (∀ r, h.getDict r = [] →
        (Object.make h nm (some r)).1.propsRef = h.dicts.length ∧
          (Object.make h nm (some r)).2.getDict
            (Object.make h nm (some r)).1.propsRef = []) := by
  have hfresh : (h.dicts ++ [[]]).getD h.dicts.length [] = ([] : Dict) := by
    rw [List.getD_eq_getElem?_getD, List.getElem?_concat_length]
    rfl
  refine ⟨?_, ?_, ?_, ⟨rfl, hfresh⟩, ?_⟩
  · cases props with
    | none => rfl
    | some r =>
      by_cases hr : h.getDict r = []
      · simp [Object.make, hr]
      · simp [Object.make, hr]
  · cases props with
    | none => rfl
    | some r =>
      by_cases hr : h.getDict r = []
      · simp [Object.make, hr]
      · simp [Object.make, hr]
  · intro s hs
    cases props with
    | none => simp [Object.make, hs]
    | some r =>
      by_cases hr : h.getDict r = []
      · simp [Object.make, hr, hs]
      · simp [Object.make, hr, hs]
  · intro r hr
    refine ⟨?_, ?_⟩
    · simp [Object.make, hr]
    · show Heap.getDict _ (Object.make h nm (some r)).1.propsRef = []
      simp only [Object.make, hr, if_pos]
      exact hfresh

theorem c10_constructor_defaults_witness :
    (Object.make ⟨[], 0⟩ none none).1.name = "AIOS_Object" ∧
      (Object.make ⟨[], 0⟩ (some "") none).1.name = "AIOS_Object" ∧
      (Object.make ⟨[], 0⟩ (some "TestAgent") none).1.name = "TestAgent" ∧
      (Object.make ⟨[], 0⟩ (some "TestAgent") none).1.propsRef = 0 ∧
      (Object.make ⟨[], 0⟩ (some "TestAgent") none).2.getDict
        (Object.make ⟨[], 0⟩ (some "TestAgent") none).1.propsRef = [] :=
  ⟨(c10_constructor_defaults ⟨[], 0⟩ (some "TestAgent") none).1,
    (c10_constructor_defaults ⟨[], 0⟩ (some "TestAgent") none).2.1,
    (c10_constructor_defaults ⟨[], 0⟩ (some "TestAgent") none).2.2.1 "TestAgent" (by decide),
    (c10_constructor_defaults ⟨[], 0⟩ (some "TestAgent") none).2.2.2.1.1,
    (c10_constructor_defaults ⟨[], 0⟩ (some "TestAgent") none).2.2.2.1.2⟩
